import Mathlib

/-!
Verification development for the go-hdb protocol codec
(driver/internal/protocol/parts.go): a shallow embedding of the Reader
part-iteration loop (padding accounting, skip policy, error and
rows-affected fusion) and of the Writer message assembly, together with
theorems settling the specification claims about them.

The wire is abstracted structurally: a message is the sequence of
outcomes the decoder produces for each header and part decode (byte
counts, decode errors, decoded content).  Machine integers are modelled
as Int/Nat; Go's % is Int.tmod.
-/

/-- PartKind models the protocol part kind enumeration. -/
inductive PartKind where
  | PkError
  | PkAuthentication
  | PkClientID
  | PkClientInfo
  | PkTopologyInformation
  | PkCommand
  | PkRowsAffected
  | PkStatementID
  | PkParameterMetadata
  | PkParameters
  | PkOutputParameters
  | PkResultMetadata
  | PkResultsetID
  | PkResultset
  | PkFetchSize
  | PkReadLobRequest
  | PkReadLobReply
  | PkWriteLobRequest
  | PkWriteLobReply
  | PkClientContext
  | PkConnectOptions
  | PkDBConnectInfo
  | PkStatementContext
  | PkTransactionFlags
  deriving DecidableEq, Repr

open PartKind

/-- Shape of a part decoder: plain decode, numArg driven, bufLen driven, or
result shaped (needs extra parameters; the generic read path panics on it,
mirroring the default case of Reader.readPart). -/
inductive Shape where
  | plain
  | numArg
  | bufLen
  | result
  deriving DecidableEq, Repr

/-- Dynamic type of a part instance, to the precision the Reader's type
switches care about: HdbErrors, RowsAffected, or any other part with its
decoder shape. -/
inductive PType where
  | errorsPart
  | rowsAffectedPart
  | otherPart (sh : Shape)
  deriving DecidableEq, Repr

/-- Decoder shape used by Reader.readPart for a given part instance:
HdbErrors and RowsAffected are numArgPartDecoder instances. -/
def shapeOf : PType → Shape
  | .errorsPart => .numArg
  | .rowsAffectedPart => .numArg
  | .otherPart sh => sh

/-- genPartTypeMap of parts.go: the part kinds that can be instantiated
generically, with the decoder shape each concrete type implements
(per the interface checks in parts.go). -/
def genPartTypeMapF : PartKind → Option PType
  | PkError => some .errorsPart
  | PkClientID => some (.otherPart .bufLen)
  | PkClientInfo => some (.otherPart .numArg)
  | PkTopologyInformation => some (.otherPart .numArg)
  | PkCommand => some (.otherPart .bufLen)
  | PkRowsAffected => some .rowsAffectedPart
  | PkStatementID => some (.otherPart .plain)
  | PkResultsetID => some (.otherPart .plain)
  | PkFetchSize => some (.otherPart .plain)
  | PkReadLobRequest => some (.otherPart .plain)
  | PkReadLobReply => some (.otherPart .numArg)
  | PkWriteLobReply => some (.otherPart .numArg)
  | PkWriteLobRequest => some (.otherPart .numArg)
  | PkClientContext => some (.otherPart .numArg)
  | PkConnectOptions => some (.otherPart .numArg)
  | PkTransactionFlags => some (.otherPart .numArg)
  | PkStatementContext => some (.otherPart .numArg)
  | PkDBConnectInfo => some (.otherPart .numArg)
  | _ => none

/-- newGenPartReader of parts.go: authentication parts cannot be
instantiated generically; otherwise consult genPartTypeMap. -/
def newGenPartReaderF (kind : PartKind) : Option PType :=
  if kind = PkAuthentication then none else genPartTypeMapF kind

/-- One server reported error of the HdbErrors part: severity (warning bit),
error code and the statement number assigned during fusion. -/
structure HdbError where
  code : Int
  isWarning : Bool
  stmtNo : Int
  deriving DecidableEq, Repr

/-- Content of a RowsAffected part: per statement row counts plus offset. -/
structure RaPart where
  Ofs : Int
  rows : List Int
  deriving DecidableEq, Repr

/-- Modelled from the spec: the sentinel in the rows-affected vector marking
statements whose row count is absent because they failed (the concrete
value is not in src; only its distinguishability matters). -/
def RaExecutionFailed : Int := -3

/-- Errors surfaced by the modelled code paths. -/
inductive ProtErr where
  | io (n : Nat)
  | hdb (errs : List HdbError)
  | sizeUint32 (size : Int)
  | sizeInt32 (size : Int)
  | numArgRange (n : Int)
  deriving DecidableEq, Repr

/-- Panics raised by the Reader (framing protocol errors / programmer bugs). -/
inductive PanicInfo where
  | negPad (readBytes : Int) (varPartLength : Nat)
  | cntGtBuf (cnt bufLen : Int)
  | noDecoder
  deriving DecidableEq, Repr

/-- Mutable state of the protocol Reader: byte accounting, per segment part
counters, the generic part cache (kind to cached instance type), the fusion
references, the stored part read error, and the decoder per part counter
and sticky error. -/
structure ReaderState where
  readBytes : Int
  numPart : Int
  cntPart : Int
  cache : PartKind → Option PType
  lastErrors : Option (List HdbError)
  lastRowsAffected : Option RaPart
  err : Option ProtErr
  decCnt : Int
  decSticky : Option ProtErr

/-- Fresh Reader state as produced by newReader. -/
def initState : ReaderState :=
  { readBytes := 0, numPart := 0, cntPart := 0, cache := fun _ => none,
    lastErrors := none, lastRowsAffected := none, err := none,
    decCnt := 0, decSticky := none }

/-- One part on the wire, described by the outcomes its decodes produce:
header decode error (if any), the header fields, the byte count the part
decoder consumes, the error it returns, the sticky error it sets, and the
decoded content (errors list / rows affected) where applicable. -/
structure WirePart where
  hdrErr : Option ProtErr := none
  kind : PartKind
  attrs : Int := 0
  numArg : Int := 0
  bufferLength : Int := 0
  decCnt : Int := 0
  decErr : Option ProtErr := none
  decSticky : Option ProtErr := none
  errs : List HdbError := []
  ra : RaPart := ⟨0, []⟩

/-- One segment on the wire: header decode outcome and its parts. -/
structure WireSegment where
  hdrErr : Option ProtErr := none
  parts : List WirePart := []

/-- One message on the wire: header decode outcome, the variable part
length from the message header, and the declared segments. -/
structure WireMessage where
  hdrErr : Option ProtErr := none
  varPartLength : Nat := 0
  segments : List WireSegment := []

/-- Result of a Reader sub-operation: a value with the new state, or a
panic (Go panic) with the state at the point of the panic. -/
inductive PRes (α : Type) where
  | ok (val : α) (s : ReaderState)
  | fault (p : PanicInfo) (s : ReaderState)

/-- Value component of a PRes (none when the operation panicked). -/
def PRes.value {α : Type} : PRes α → Option α
  | .ok v _ => some v
  | .fault _ _ => none

/-- State component of a PRes. -/
def PRes.state {α : Type} : PRes α → ReaderState
  | .ok _ s => s
  | .fault _ s => s

/-- Modelled from the spec: the fixed segment header size, 13 bytes
(the constant lives outside src). -/
def segmentHeaderSize : Int := 13

/-- Modelled from the spec: the fixed part header size, 16 bytes
(the constant lives outside src). -/
def partHeaderSize : Int := 16

/-- padBytes of parts.go: bytes needed to right-pad size to the 8 byte
boundary (Go % is truncated division remainder). -/
def padBytes (size : Int) : Int :=
  if size.tmod 8 ≠ 0 then 8 - size.tmod 8 else 0

/-- Static Reader configuration: protocol trace flag, plus the flag
selecting the claim C1 spec-worded padding rule instead of the source one
(used only to compare the two). -/
structure Cfg where
  protTrace : Bool
  specPad : Bool := false

/-- Reader.skipPadding of parts.go: pad to the 8 byte boundary if this is
not the last part of the current segment; for the last part of the segment,
skip the difference between the message header variable part length and the
bytes read, panicking when it is negative. -/
def skipPadding (vpl : Nat) (bufLen : Int) (s : ReaderState) : PRes Int :=
  if s.cntPart ≠ s.numPart then
    let pb := padBytes bufLen
    .ok pb { s with decCnt := s.decCnt + pb }
  else
    let pb : Int := (vpl : Int) - s.readBytes
    if pb < 0 then .fault (.negPad s.readBytes vpl) s
    else if pb > 0 then .ok pb { s with decCnt := s.decCnt + pb }
    else .ok pb s

/-- Modelled from the spec (claim C1 wording): padding rule that applies the
variable part length rule only to the final part of the final segment, and
pads every other part to the 8 byte boundary. -/
def skipPaddingSpecRule (finalSeg : Bool) (vpl : Nat) (bufLen : Int) (s : ReaderState) : PRes Int :=
  if ¬(finalSeg = true ∧ s.cntPart = s.numPart) then
    let pb := padBytes bufLen
    .ok pb { s with decCnt := s.decCnt + pb }
  else
    let pb : Int := (vpl : Int) - s.readBytes
    if pb < 0 then .fault (.negPad s.readBytes vpl) s
    else if pb > 0 then .ok pb { s with decCnt := s.decCnt + pb }
    else .ok pb s

/-- Padding rule selector: the source rule, or the claim C1 spec-worded rule. -/
def skipPaddingSel (cfg : Cfg) (finalSeg : Bool) (vpl : Nat) (bufLen : Int) (s : ReaderState) : PRes Int :=
  if cfg.specPad then skipPaddingSpecRule finalSeg vpl bufLen s
  else skipPadding vpl bufLen s

/-- Reader.skipPart of parts.go: reset the decoder counter, skip the
declared buffer length, account the bytes and the post part padding. -/
def skipPart (cfg : Cfg) (finalSeg : Bool) (vpl : Nat) (bufLen : Int) (s : ReaderState) : PRes (Option ProtErr) :=
  let s1 := { s with decCnt := 0 }
  let s2 := { s1 with decCnt := s1.decCnt + bufLen }
  let s3 := { s2 with readBytes := s2.readBytes + s2.decCnt }
  match skipPaddingSel cfg finalSeg vpl bufLen s3 with
  | .ok pb s4 => .ok none { s4 with readBytes := s4.readBytes + pb }
  | .fault p s4 => .fault p s4

/-- Decode and shortfall part of Reader.readPart of parts.go: reset the
decoder counter, run the part decoder (panicking when the part implements
none of the three decoder interfaces), skip any shortfall up to the
declared buffer length, panic when the decoder consumed more than the
declared buffer length, and account the consumed bytes. -/
def readPartCore (wp : WirePart) (pt : PType) (s : ReaderState) : PRes (Option ProtErr) :=
  let s1 := { s with decCnt := 0 }
  match shapeOf pt with
  | .result => .fault .noDecoder s1
  | _ =>
    let s2 := { s1 with decCnt := wp.decCnt,
                        decSticky := s1.decSticky.orElse fun _ => wp.decSticky }
    let cnt := s2.decCnt
    let bufLen := wp.bufferLength
    if cnt < bufLen then
      let s3 := { s2 with decCnt := s2.decCnt + (bufLen - cnt) }
      .ok wp.decErr { s3 with readBytes := s3.readBytes + s3.decCnt }
    else if cnt > bufLen then
      .fault (.cntGtBuf cnt bufLen) s2
    else
      .ok wp.decErr { s2 with readBytes := s2.readBytes + s2.decCnt }

/-- Reader.readPart of parts.go: the decode and shortfall step followed by
the post part padding accounting. -/
def readPart (cfg : Cfg) (finalSeg : Bool) (vpl : Nat) (wp : WirePart) (pt : PType) (s : ReaderState) : PRes (Option ProtErr) :=
  match readPartCore wp pt s with
  | .fault p s' => .fault p s'
  | .ok e s' =>
    match skipPaddingSel cfg finalSeg vpl wp.bufferLength s' with
    | .ok pb s'' => .ok e { s'' with readBytes := s''.readBytes + pb }
    | .fault p s'' => .fault p s''

/-- Reader.read of parts.go: readPart, store a non nil error in the Reader,
and track the last seen HdbErrors / RowsAffected instance for fusion. -/
def readPartTracked (cfg : Cfg) (finalSeg : Bool) (vpl : Nat) (wp : WirePart) (pt : PType) (s : ReaderState) : PRes (Option ProtErr) :=
  match readPart cfg finalSeg vpl wp pt s with
  | .fault p s' => .fault p s'
  | .ok e s' =>
    let s2 := match e with
      | some er => { s' with err := some er }
      | none => s'
    let s3 := match pt with
      | .errorsPart => { s2 with lastErrors := some wp.errs }
      | .rowsAffectedPart => { s2 with lastRowsAffected := some wp.ra }
      | .otherPart _ => s2
    .ok e s3

/-- Reader.skip of parts.go: skip the part verbatim unless trace is on or
the kind is Error or RowsAffected; otherwise decode into the cached
instance, creating and caching one generically when possible, and falling
back to a verbatim skip when the kind cannot be instantiated generically. -/
def skipOrCache (cfg : Cfg) (finalSeg : Bool) (vpl : Nat) (wp : WirePart) (s : ReaderState) : PRes (Option ProtErr) :=
  let kind := wp.kind
  if ¬(cfg.protTrace = true ∨ kind = PkError ∨ kind = PkRowsAffected) then
    skipPart cfg finalSeg vpl wp.bufferLength s
  else
    match s.cache kind with
    | some pt => readPartTracked cfg finalSeg vpl wp pt s
    | none =>
      match newGenPartReaderF kind with
      | none => skipPart cfg finalSeg vpl wp.bufferLength s
      | some pt =>
        let s' := { s with cache := fun k => if k = kind then some pt else s.cache k }
        readPartTracked cfg finalSeg vpl wp pt s'

/-- Decision of an IterateParts handler for one part: decline it, decline
and return an error, or invoke the read function on a part instance of the
given type (and pass the read error through as the handler result or not). -/
inductive HAction where
  | decline
  | declineErr (e : ProtErr)
  | invoke (pt : PType) (passErr : Bool)

/-- Handler passed to IterateParts (kind and attributes to decision). -/
def Handler := PartKind → Int → HAction

/-- Outcome of one loop step of IterateParts: continue, early return with
an error, or a propagating panic. -/
inductive StepRes where
  | cont (s : ReaderState)
  | stop (e : ProtErr) (s : ReaderState)
  | fault (p : PanicInfo) (s : ReaderState)

/-- Body of the part loop of Reader.IterateParts of parts.go for one part:
decode the part header, account it, increment the part counter, consult
the handler, and read or skip the part. -/
def partStep (cfg : Cfg) (vpl : Nat) (finalSeg : Bool) (fn : Option Handler) (wp : WirePart) (s : ReaderState) : StepRes :=
  match wp.hdrErr with
  | some e => .stop e s
  | none =>
    let s1 := { s with readBytes := s.readBytes + partHeaderSize, cntPart := s.cntPart + 1 }
    match fn with
    | some f =>
      match f wp.kind wp.attrs with
      | .declineErr e => .stop e s1
      | .invoke pt passErr =>
        match readPartTracked cfg finalSeg vpl wp pt s1 with
        | .fault p s2 => .fault p s2
        | .ok rerr s2 =>
          match (if passErr then rerr else none) with
          | some e => .stop e s2
          | none => .cont s2
      | .decline =>
        match skipOrCache cfg finalSeg vpl wp s1 with
        | .fault p s2 => .fault p s2
        | .ok (some e) s2 => .stop e s2
        | .ok none s2 => .cont s2
    | none =>
      match skipOrCache cfg finalSeg vpl wp s1 with
      | .fault p s2 => .fault p s2
      | .ok (some e) s2 => .stop e s2
      | .ok none s2 => .cont s2

/-- Part loop of Reader.IterateParts over the parts of one segment. -/
def partsLoop (cfg : Cfg) (vpl : Nat) (finalSeg : Bool) (fn : Option Handler) : List WirePart → ReaderState → StepRes
  | [], s => .cont s
  | wp :: rest, s =>
    match partStep cfg vpl finalSeg fn wp s with
    | .cont s' => partsLoop cfg vpl finalSeg fn rest s'
    | r => r

/-- Segment step of Reader.IterateParts: decode the segment header, account
its 13 bytes, set the part counters, and run the part loop. -/
def segStep (cfg : Cfg) (vpl : Nat) (fn : Option Handler) (finalSeg : Bool) (seg : WireSegment) (s : ReaderState) : StepRes :=
  match seg.hdrErr with
  | some e => .stop e s
  | none =>
    let s1 := { s with readBytes := s.readBytes + segmentHeaderSize,
                       numPart := (seg.parts.length : Int), cntPart := 0 }
    partsLoop cfg vpl finalSeg fn seg.parts s1

/-- Segment loop of Reader.IterateParts. -/
def segsLoop (cfg : Cfg) (vpl : Nat) (fn : Option Handler) : List WireSegment → ReaderState → StepRes
  | [], s => .cont s
  | seg :: rest, s =>
    match segStep cfg vpl fn rest.isEmpty seg s with
    | .cont s' => segsLoop cfg vpl fn rest s'
    | r => r

/-- Reset of the fusion state and the sticky decoder error performed by the
deferred function of Reader.checkError. -/
def resetReadFlags (s : ReaderState) : ReaderState :=
  { s with lastErrors := none, lastRowsAffected := none, err := none, decSticky := none }

/-- HdbErrors.setStmtNo: set the statement number of the idx-th error
(no effect when idx is out of range). -/
def setStmtNo : List HdbError → Nat → Int → List HdbError
  | [], _, _ => []
  | e :: es, 0, no => { e with stmtNo := no } :: es
  | e :: es, j + 1, no => e :: setStmtNo es j no

/-- Fusion loop of Reader.checkError: walk the rows in order and for the
j-th entry equal to RaExecutionFailed give the j-th error the statement
number Ofs + i (i the position in rows). -/
def fuseLoop (ofs : Int) : List Int → Nat → Nat → List HdbError → List HdbError
  | [], _, _, errs => errs
  | v :: rest, i, j, errs =>
    if v = RaExecutionFailed then
      fuseLoop ofs rest (i + 1) (j + 1) (setStmtNo errs j (ofs + (i : Int)))
    else
      fuseLoop ofs rest (i + 1) j errs

/-- Statement linking of Reader.checkError when a RowsAffected part exists. -/
def applyFusion (errs : List HdbError) (ra : RaPart) : List HdbError :=
  fuseLoop ra.Ofs ra.rows 0 0 errs

/-- Modelled from the spec: the only warnings bit of an HdbErrors part,
derived from the severities of its entries (the derivation lives outside
src). -/
def onlyWarnings (errs : List HdbError) : Bool := errs.all fun e => e.isWarning

/-- Reader.checkError of parts.go: return the stored part read error, or
the sticky decoder error, or nothing when no errors part was seen; else
link the statement numbers via the rows affected part, return success
(logging each warning) for a warnings only list and the error list
otherwise; always reset the fusion state and the sticky error on exit.
The middle component is the list of warnings logged. -/
def checkError (s : ReaderState) : Option ProtErr × List HdbError × ReaderState :=
  match s.err with
  | some e => (some e, [], resetReadFlags s)
  | none =>
    match s.decSticky with
    | some e => (some e, [], resetReadFlags s)
    | none =>
      match s.lastErrors with
      | none => (none, [], resetReadFlags s)
      | some errs0 =>
        let errs := match s.lastRowsAffected with
          | some ra => applyFusion errs0 ra
          | none => errs0
        if onlyWarnings errs then (none, errs, resetReadFlags s)
        else (some (.hdb errs), [], resetReadFlags s)

/-- Overall outcome of IterateParts: success, error, or propagated panic. -/
inductive IterOut where
  | ok
  | errO (e : ProtErr)
  | panicO (p : PanicInfo)
  deriving DecidableEq, Repr

/-- Result of one IterateParts invocation: outcome, warnings logged during
error fusion, and the Reader state left behind. -/
structure IterResult where
  out : IterOut
  warnLogs : List HdbError
  state : ReaderState

/-- Reader.IterateParts of parts.go, generic in the padding rule selector:
decode the message header, reset the byte account, run the segment loop,
and finish with checkError; early decode, handler or part read errors
return without reaching checkError. -/
def iterateCore (cfg : Cfg) (fn : Option Handler) (msg : WireMessage) (s : ReaderState) : IterResult :=
  match msg.hdrErr with
  | some e => ⟨.errO e, [], s⟩
  | none =>
    let s1 := { s with readBytes := 0 }
    match segsLoop cfg msg.varPartLength fn msg.segments s1 with
    | .cont s2 =>
      match checkError s2 with
      | (some e, logs, s3) => ⟨.errO e, logs, s3⟩
      | (none, logs, s3) => ⟨.ok, logs, s3⟩
    | .stop e s2 => ⟨.errO e, [], s2⟩
    | .fault p s2 => ⟨.panicO p, [], s2⟩

/-- Reader.IterateParts of parts.go (with the source padding rule). -/
def IterateParts (protTrace : Bool) (fn : Option Handler) (msg : WireMessage) (s : ReaderState) : IterResult :=
  iterateCore ⟨protTrace, false⟩ fn msg s

/-- Reader.SkipParts of parts.go: IterateParts with a nil handler. -/
def SkipParts (protTrace : Bool) (msg : WireMessage) (s : ReaderState) : IterResult :=
  IterateParts protTrace none msg s

/-- Modelled from the spec (claim C1 wording): the iteration with the
padding rule keyed to the final part of the final segment. -/
def IteratePartsSpecPad (protTrace : Bool) (fn : Option Handler) (msg : WireMessage) (s : ReaderState) : IterResult :=
  iterateCore ⟨protTrace, true⟩ fn msg s

/-- One writable part as the Writer sees it: its kind, the payload size
reported by part.size(), the value of part.numArg(), and the error its
encode call returns (none when it encodes cleanly). -/
structure WPart where
  kind : PartKind
  size : Int
  numArg : Int
  encErr : Option ProtErr := none
  deriving DecidableEq, Repr

/-- One item of the Writer output trace. -/
inductive Emit where
  | msgHdr (sessionID varPartLength varPartSize noOfSegm : Int)
  | segHdr (segmentLength noOfParts segmentNo messageType : Int) (commit : Bool)
  | partHdr (kind : PartKind) (numArg bufferLength bufferSize : Int)
  | partPayload (kind : PartKind)
  | zeroes (n : Int)
  deriving DecidableEq, Repr

/-- Modelled from the spec: partHeader.setNumArg chooses the 16 or 32 bit
numArg field by magnitude and fails when the count does not fit the 32 bit
field (the code lives outside src). -/
def setNumArg (n : Int) : Option ProtErr :=
  if n > 2147483647 then some (.numArgRange n) else none

/-- Session variable prepending of Writer._write: prepend the clientInfo
part carrying the session variables when they are configured, not yet sent
and the message type supports client info. -/
def effectiveParts (sv : Option WPart) (svSent : Bool) (ciSupported : Bool) (parts : List WPart) : List WPart :=
  match sv with
  | some p => if !svSent && ciSupported then p :: parts else parts
  | none => parts

/-- Part emission loop of Writer._write: per part set numArg, emit the part
header with the rolling bufferSize hint, encode the part, emit the pad
zeroes, and decrement the rolling bufferSize. -/
def encodeParts : List WPart → Int → List Emit → Option ProtErr × List Emit
  | [], _, acc => (none, acc)
  | p :: rest, bufferSize, acc =>
    let size := p.size
    let pad := padBytes size
    match setNumArg p.numArg with
    | some e => (some e, acc)
    | none =>
      let acc1 := acc ++ [.partHdr p.kind p.numArg size bufferSize]
      match p.encErr with
      | some e => (some e, acc1)
      | none =>
        let acc2 := acc1 ++ [.partPayload p.kind, .zeroes pad]
        encodeParts rest (bufferSize - (partHeaderSize + size + pad)) acc2

/-- Total size accumulation of Writer._write: segment header plus one part
header per part, plus each payload size and its padding. -/
def msgSize (parts : List WPart) : Int :=
  parts.foldl (fun acc p => acc + (p.size + padBytes p.size))
    (segmentHeaderSize + (parts.length : Int) * partHeaderSize)

/-- Writer._write of parts.go: prepend the session variable part when due,
compute the total size, reject totals beyond the uint32 message header
field, emit the message header, reject totals beyond the int32 segment
length field, emit the segment header, run the part loop, and flush.
Returns the error (if any), the emitted trace, and the new svSent flag. -/
def writerWriteCore (sv : Option WPart) (svSent : Bool) (ciSupported : Bool)
    (sessionID : Int) (messageType : Int) (commit : Bool)
    (parts0 : List WPart) (flushErr : Option ProtErr) :
    Option ProtErr × List Emit × Bool :=
  let parts := effectiveParts sv svSent ciSupported parts0
  let svSent' := if sv.isSome && !svSent && ciSupported then true else svSent
  let numPart := parts.length
  let size := msgSize parts
  if size > 4294967295 then (some (.sizeUint32 size), [], svSent')
  else
    let em1 : List Emit := [.msgHdr sessionID size size 1]
    if size > 2147483647 then (some (.sizeInt32 size), em1, svSent')
    else
      let em2 := em1 ++ [.segHdr size (numPart : Int) 1 messageType commit]
      match encodeParts parts (size - segmentHeaderSize) em2 with
      | (some e, ems) => (some e, ems, svSent')
      | (none, ems) =>
        match flushErr with
        | some e => (some e, ems, svSent')
        | none => (none, ems, svSent')

/-- Go error values as the driver sees them: a protocol error, the
driver.ErrBadConn sentinel, or an errors.Join of two errors. -/
inductive GoError where
  | protErr (e : ProtErr)
  | badConn
  | joinE (a b : GoError)
  deriving DecidableEq, BEq, Repr

/-- errors.Is over the modelled Go error values: match the target or
recurse into the joined children. -/
def errorsIs : GoError → GoError → Bool
  | .joinE a b, t => (GoError.joinE a b == t) || errorsIs a t || errorsIs b t
  | e, t => e == t

/-- Writer.Write of parts.go: run _write and join any error of it with the
driver.ErrBadConn sentinel. -/
def writerWrite (sv : Option WPart) (svSent : Bool) (ciSupported : Bool)
    (sessionID : Int) (messageType : Int) (commit : Bool)
    (parts0 : List WPart) (flushErr : Option ProtErr) :
    Option GoError × List Emit × Bool :=
  match writerWriteCore sv svSent ciSupported sessionID messageType commit parts0 flushErr with
  | (some e, ems, sv') => (some (.joinE (.protErr e) .badConn), ems, sv')
  | (none, ems, sv') => (none, ems, sv')

/-- Number of RaExecutionFailed entries strictly before position i of the
rows vector: the error index that fusion pairs with a failure at i. -/
def failsBefore (rows : List Int) (i : Nat) : Nat :=
  (rows.take i).countP fun v => v == RaExecutionFailed

/-- Concrete two segment message for claim C1: segment 1 ends with a part
of buffer length 4, segment 2 holds a part of buffer length 30, message
variable part length 100. -/
def cexC1msg : WireMessage :=
  { varPartLength := 100,
    segments := [ { parts := [ { kind := PkCommand, bufferLength := 4 } ] },
                  { parts := [ { kind := PkCommand, bufferLength := 30 } ] } ] }

/-- Concrete part for claim C2: a Command part whose decode consumes its
whole buffer length and returns an io error. -/
def cexC2part : WirePart :=
  { kind := PkCommand, bufferLength := 4, decCnt := 4, decErr := some (.io 9) }

/-- Concrete Reader state for claim C2: mid segment (part 1 of 2), empty
part cache. -/
def cexC2state : ReaderState := { initState with numPart := 2, cntPart := 1 }

/-- Concrete message for claim C3: an Error part holding one fatal error,
followed by a part whose header decode fails. -/
def cexC3msg : WireMessage :=
  { varPartLength := 100,
    segments := [ { parts := [ { kind := PkError, bufferLength := 8, decCnt := 8,
                                 errs := [⟨7, false, 0⟩] },
                               { hdrErr := some (.io 7), kind := PkCommand } ] } ] }

/-- Empty message for the claim C3 amended witness. -/
def c3wMsg : WireMessage := {}

/-- Reader state of the claim C3 amended witness after the message header. -/
def c3wState : ReaderState := { initState with readBytes := 0 }

/-- Concrete Reader state for claim C4: one fatal error without statement
number, rows affected [1, RaExecutionFailed, 2] with offset 0. -/
def cexC4state : ReaderState :=
  { initState with lastErrors := some [⟨10, false, -1⟩],
                   lastRowsAffected := some ⟨0, [1, RaExecutionFailed, 2]⟩ }

/-- Concrete message for claim C5: a single Error part decoding into two
warning severity errors (message sizes consistent: 13 + 16 + 16 = 45). -/
def cexC5msg : WireMessage :=
  { varPartLength := 45,
    segments := [ { parts := [ { kind := PkError, bufferLength := 16, decCnt := 16,
                                 errs := [⟨3, true, 0⟩, ⟨4, true, 0⟩] } ] } ] }

/-- Concrete message for claim C5: a single Error part decoding into one
fatal error (13 + 16 + 8 = 37). -/
def cexC5fatal : WireMessage :=
  { varPartLength := 37,
    segments := [ { parts := [ { kind := PkError, bufferLength := 8, decCnt := 8,
                                 errs := [⟨9, false, 0⟩] } ] } ] }

/-- Concrete part list for claim C6: one part whose assembled total is
2147483653, above the int32 bound but below the uint32 bound. -/
def cexC6parts : List WPart := [⟨PkCommand, 2147483624, 1, none⟩]

/-- Concrete message for claim C9: a reply with a single fatal Error part
that a nil handler run must still surface (13 + 16 + 8 = 37). -/
def cexC9msg : WireMessage :=
  { varPartLength := 37,
    segments := [ { parts := [ { kind := PkError, bufferLength := 8, decCnt := 8,
                                 errs := [⟨5, false, 0⟩] } ] } ] }

/-- Concrete part list for claim C10: one part whose assembled total
4294967325 exceeds the uint32 bound, a purely local validation failure. -/
def cexC10parts : List WPart := [⟨PkCommand, 4294967296, 1, none⟩]

/-- Helper: for a non negative size, padBytes equals (-size) mod 8 (Euclidean). -/
theorem padBytes_eq_neg_emod (n : Int) (h : 0 ≤ n) : padBytes n = (-n) % 8 := by
  unfold padBytes
  rw [Int.tmod_eq_emod h (by norm_num)]
  omega

/-- Helper: checkError always leaves the reset fusion state behind (the
deferred function of the source runs on every path through checkError). -/
theorem checkError_resets (s : ReaderState) : (checkError s).2.2 = resetReadFlags s := by
  unfold checkError
  cases h1 : s.err
  · cases h2 : s.decSticky
    · cases h3 : s.lastErrors
      · rfl
      · cases h4 : s.lastRowsAffected
        · dsimp only
          split <;> rfl
        · dsimp only
          split <;> rfl
    · rfl
  · rfl

/-- Claim C1 amended: after each part that is not the final part of its own
segment the reader skips padBytes(bufferLength) = (-bufferLength) mod 8
bytes; for the final part of each segment (not only of the final one) it
computes varPartLength - readBytes, aborting when that difference is
negative and skipping exactly that many bytes when positive. -/
theorem C1_padding_per_segment (vpl : Nat) (bufLen : Int) (s : ReaderState) :
    (s.cntPart ≠ s.numPart →
      skipPadding vpl bufLen s
        = .ok (padBytes bufLen) { s with decCnt := s.decCnt + padBytes bufLen })
    ∧ (0 ≤ bufLen → padBytes bufLen = (-bufLen) % 8)
    ∧ (s.cntPart = s.numPart → (vpl : Int) - s.readBytes < 0 →
        skipPadding vpl bufLen s = .fault (.negPad s.readBytes vpl) s)
    ∧ (s.cntPart = s.numPart → 0 < (vpl : Int) - s.readBytes →
        skipPadding vpl bufLen s
          = .ok ((vpl : Int) - s.readBytes)
              { s with decCnt := s.decCnt + ((vpl : Int) - s.readBytes) })
    ∧ (s.cntPart = s.numPart → (vpl : Int) - s.readBytes = 0 →
        skipPadding vpl bufLen s = .ok ((vpl : Int) - s.readBytes) s) := by
  refine ⟨?_, fun h => padBytes_eq_neg_emod bufLen h, ?_, ?_, ?_⟩
  · intro h
    unfold skipPadding
    rw [if_pos h]
  · intro h1 h2
    unfold skipPadding
    rw [if_neg (by simp [h1]), if_pos h2]
  · intro h1 h2
    unfold skipPadding
    rw [if_neg (by simp [h1]), if_neg (by omega), if_pos h2]
  · intro h1 h2
    unfold skipPadding
    rw [if_neg (by simp [h1]), if_neg (by omega), if_neg (by omega)]

/-- Claim C1 witness: the per segment padding rule at a concrete state. -/
theorem C1_padding_witness :
    ({ initState with cntPart := 1, numPart := 2 } : ReaderState).cntPart
        ≠ ({ initState with cntPart := 1, numPart := 2 } : ReaderState).numPart
    ∧ skipPadding 8 3 { initState with cntPart := 1, numPart := 2 }
        = .ok (padBytes 3)
            { { initState with cntPart := 1, numPart := 2 } with
              decCnt := ({ initState with cntPart := 1, numPart := 2 } : ReaderState).decCnt + padBytes 3 } :=
  ⟨by decide, (C1_padding_per_segment 8 3 _).1 (by decide)⟩

/-- Claim C1 counterexample: on a two segment message the part ending the
non final segment is not padded to the 8 byte boundary as the claim states;
the source applies the varPartLength rule to the last part of every segment,
making this run panic, while the claim worded rule would accept it. -/
theorem C1_counterexample :
    (IterateParts false none cexC1msg initState).out = .panicO (.negPad 159 100)
    ∧ (IteratePartsSpecPad false none cexC1msg initState).out = .ok
    ∧ (IterateParts false none cexC1msg initState).out
        ≠ (IteratePartsSpecPad false none cexC1msg initState).out := by
  refine ⟨by decide, by decide, by decide⟩

/-- Claim C2 counterexample: with protocol trace on, a Command part with no
cached decoder is decoded (its decode error surfaces and a decoder is
cached), not discarded as the claim states for a part that is neither
Error/RowsAffected nor already cached. -/
theorem C2_counterexample :
    (skipOrCache ⟨true, false⟩ false 0 cexC2part cexC2state).value = some (some (.io 9))
    ∧ (skipOrCache ⟨true, false⟩ false 0 cexC2part cexC2state).state.cache PkCommand
        = some (.otherPart .bufLen)
    ∧ (skipPart ⟨true, false⟩ false 0 cexC2part.bufferLength cexC2state).value = some none
    ∧ (skipOrCache ⟨true, false⟩ false 0 cexC2part cexC2state).value
        ≠ (skipPart ⟨true, false⟩ false 0 cexC2part.bufferLength cexC2state).value := by
  refine ⟨by decide, by decide, by decide, by decide⟩

/-- Claim C2 amended: a part is skipped verbatim unless trace is on or its
kind is Error or RowsAffected; in that case a cached decoder is used when
present, else a generic decoder is created, cached and used when the kind
is generically instantiable, else the declared buffer length is discarded.
The cache is never consulted when trace is off and the kind is not
Error/RowsAffected. -/
theorem C2_skip_policy (cfg : Cfg) (finalSeg : Bool) (vpl : Nat) (wp : WirePart) (s : ReaderState) :
    (¬(cfg.protTrace = true ∨ wp.kind = PkError ∨ wp.kind = PkRowsAffected) →
      skipOrCache cfg finalSeg vpl wp s = skipPart cfg finalSeg vpl wp.bufferLength s)
    ∧ (∀ pt, (cfg.protTrace = true ∨ wp.kind = PkError ∨ wp.kind = PkRowsAffected) →
        s.cache wp.kind = some pt →
        skipOrCache cfg finalSeg vpl wp s = readPartTracked cfg finalSeg vpl wp pt s)
    ∧ ((cfg.protTrace = true ∨ wp.kind = PkError ∨ wp.kind = PkRowsAffected) →
        s.cache wp.kind = none → newGenPartReaderF wp.kind = none →
        skipOrCache cfg finalSeg vpl wp s = skipPart cfg finalSeg vpl wp.bufferLength s)
    ∧ (∀ pt, (cfg.protTrace = true ∨ wp.kind = PkError ∨ wp.kind = PkRowsAffected) →
        s.cache wp.kind = none → newGenPartReaderF wp.kind = some pt →
        skipOrCache cfg finalSeg vpl wp s
          = readPartTracked cfg finalSeg vpl wp pt
              { s with cache := fun k => if k = wp.kind then some pt else s.cache k }) := by
  refine ⟨?_, ?_, ?_, ?_⟩
  · intro h
    unfold skipOrCache
    rw [if_pos h]
  · intro pt h hc
    unfold skipOrCache
    rw [if_neg (not_not_intro h), hc]
  · intro h hc hg
    unfold skipOrCache
    rw [if_neg (not_not_intro h), hc, hg]
  · intro pt h hc hg
    unfold skipOrCache
    rw [if_neg (not_not_intro h), hc, hg]

/-- Claim C2 witness: the amended skip policy applied at a concrete input. -/
theorem C2_skip_policy_witness :
    ¬((false : Bool) = true ∨ PkCommand = PkError ∨ PkCommand = PkRowsAffected)
    ∧ skipOrCache ⟨false, false⟩ false 0 cexC2part cexC2state
        = skipPart ⟨false, false⟩ false 0 cexC2part.bufferLength cexC2state :=
  ⟨by decide, (C2_skip_policy ⟨false, false⟩ false 0 cexC2part cexC2state).1 (by decide)⟩

/-- Claim C3 counterexample: a part header decode error after an Error part
makes IterateParts return early with the fusion state not reset, refuting
reset on an error exit of any kind. -/
theorem C3_counterexample :
    (IterateParts false none cexC3msg initState).out = .errO (.io 7)
    ∧ (IterateParts false none cexC3msg initState).state.lastErrors = some [⟨7, false, 0⟩] := by
  refine ⟨by decide, by decide⟩

/-- Claim C3 amended: whenever IterateParts processes all segments and exits
through error fusion (returning Ok or the fused error), the fusion state and
the sticky decoder error are reset; early returns do not reset them. -/
theorem C3_reset_on_fusion_exit (protTrace : Bool) (fn : Option Handler) (msg : WireMessage)
    (s s2 : ReaderState) (hm : msg.hdrErr = none)
    (hc : segsLoop ⟨protTrace, false⟩ msg.varPartLength fn msg.segments { s with readBytes := 0 }
            = .cont s2) :
    (IterateParts protTrace fn msg s).state = resetReadFlags s2
    ∧ (IterateParts protTrace fn msg s).state.lastErrors = none
    ∧ (IterateParts protTrace fn msg s).state.lastRowsAffected = none
    ∧ (IterateParts protTrace fn msg s).state.err = none
    ∧ (IterateParts protTrace fn msg s).state.decSticky = none := by
  have hstate : (IterateParts protTrace fn msg s).state = (checkError s2).2.2 := by
    unfold IterateParts iterateCore
    rw [hm]
    dsimp only
    rw [hc]
    rcases h : checkError s2 with ⟨oe, logs, s3⟩
    cases oe <;> simp [h]
  rw [hstate, checkError_resets]
  exact ⟨rfl, rfl, rfl, rfl, rfl⟩

/-- Claim C3 witness: the reset on the fusion exit path at a concrete input. -/
theorem C3_reset_witness :
    c3wMsg.hdrErr = none
    ∧ segsLoop ⟨false, false⟩ c3wMsg.varPartLength none c3wMsg.segments
        { initState with readBytes := 0 } = .cont c3wState
    ∧ (IterateParts false none c3wMsg initState).state.lastErrors = none :=
  ⟨rfl, rfl, (C3_reset_on_fusion_exit false none c3wMsg initState c3wState rfl rfl).2.1⟩

/-- Helper: setStmtNo rewrites exactly the addressed entry. -/
theorem setStmtNo_get_self (errs : List HdbError) (j : Nat) (no : Int) :
    (setStmtNo errs j no).get? j = (errs.get? j).map fun e => { e with stmtNo := no } := by
  induction errs generalizing j with
  | nil => cases j <;> simp [setStmtNo]
  | cons e es ih =>
    cases j with
    | zero => simp [setStmtNo]
    | succ j => simpa [setStmtNo] using ih j

/-- Helper: setStmtNo leaves every other entry unchanged. -/
theorem setStmtNo_get_ne (errs : List HdbError) (j t : Nat) (no : Int) (h : j ≠ t) :
    (setStmtNo errs j no).get? t = errs.get? t := by
  induction errs generalizing j t with
  | nil => simp [setStmtNo]
  | cons e es ih =>
    cases j with
    | zero =>
      cases t with
      | zero => exact absurd rfl h
      | succ t => simp [setStmtNo]
    | succ j =>
      cases t with
      | zero => simp [setStmtNo]
      | succ t =>
        simpa [setStmtNo] using ih j t (by omega)

/-- Helper: the fusion loop never touches entries below its error cursor. -/
theorem fuseLoop_get_lt (ofs : Int) (rows : List Int) (t : Nat) :
    ∀ (i0 j0 : Nat) (errs : List HdbError), t < j0 →
      (fuseLoop ofs rows i0 j0 errs).get? t = errs.get? t := by
  induction rows with
  | nil => intro i0 j0 errs h; rfl
  | cons v rest ih =>
    intro i0 j0 errs h
    unfold fuseLoop
    by_cases hv : v = RaExecutionFailed
    · rw [if_pos hv, ih (i0 + 1) (j0 + 1) _ (by omega),
        setStmtNo_get_ne _ j0 t _ (by omega)]
    · rw [if_neg hv]
      exact ih (i0 + 1) j0 errs h

/-- Helper: generalized fusion indexing over the loop counters. -/
theorem fuseLoop_get_fail (ofs : Int) (rows : List Int) :
    ∀ (i i0 j0 : Nat) (errs : List HdbError),
      rows.get? i = some RaExecutionFailed →
      (fuseLoop ofs rows i0 j0 errs).get? (j0 + failsBefore rows i)
        = (errs.get? (j0 + failsBefore rows i)).map
            fun e => { e with stmtNo := ofs + ((i0 : Int) + (i : Int)) } := by
  induction rows with
  | nil => intro i i0 j0 errs h; simp at h
  | cons v rest ih =>
    intro i i0 j0 errs h
    cases i with
    | zero =>
      have hv : v = RaExecutionFailed := by simpa using h
      unfold fuseLoop
      rw [if_pos hv]
      have hfb : j0 + failsBefore (v :: rest) 0 = j0 := by simp [failsBefore]
      rw [hfb, fuseLoop_get_lt ofs rest j0 (i0 + 1) (j0 + 1) _ (by omega),
        setStmtNo_get_self]
      norm_num
    | succ i =>
      have hr : rest.get? i = some RaExecutionFailed := by simpa using h
      unfold fuseLoop
      by_cases hv : v = RaExecutionFailed
      · rw [if_pos hv]
        have hfb : failsBefore (v :: rest) (i + 1) = failsBefore rest i + 1 := by
          simp [failsBefore, List.countP_cons, hv]
        have hidx : j0 + failsBefore (v :: rest) (i + 1) = (j0 + 1) + failsBefore rest i := by
          omega
        rw [hfb] at hidx
        rw [hfb, hidx, ih i (i0 + 1) (j0 + 1) _ hr,
          setStmtNo_get_ne _ j0 _ _ (by omega)]
        have hval : ofs + (((i0 + 1 : Nat) : Int) + (i : Int))
            = ofs + ((i0 : Int) + ((i + 1 : Nat) : Int)) := by push_cast; ring
        rw [hval]
      · rw [if_neg hv]
        have hfb : failsBefore (v :: rest) (i + 1) = failsBefore rest i := by
          simp [failsBefore, List.countP_cons, hv]
        rw [hfb, ih i (i0 + 1) j0 errs hr]
        have hval : ofs + (((i0 + 1 : Nat) : Int) + (i : Int))
            = ofs + ((i0 : Int) + ((i + 1 : Nat) : Int)) := by push_cast; ring
        rw [hval]

/-- Claim C4: when both an errors part and a rows affected part exist,
fusion walks the rows in order and the j-th RaExecutionFailed entry at
position i gives the j-th error the statement index Ofs + i; at the claimed
concrete input the single error receives statement index 1 and checkError
returns it. -/
theorem C4_fusion_indices (errs : List HdbError) (ra : RaPart) (i : Nat)
    (hf : ra.rows.get? i = some RaExecutionFailed) :
    (applyFusion errs ra).get? (failsBefore ra.rows i)
      = ((errs.get? (failsBefore ra.rows i)).map
          fun e => { e with stmtNo := ra.Ofs + (i : Int) })
    ∧ (checkError cexC4state).1 = some (.hdb [⟨10, false, 1⟩]) := by
  constructor
  · have hgen := fuseLoop_get_fail ra.Ofs ra.rows i 0 0 errs hf
    simpa [applyFusion] using hgen
  · decide

/-- Claim C4 witness: the fusion indexing at rows [1, RaExecutionFailed, 2]
with one error. -/
theorem C4_fusion_witness :
    ([1, RaExecutionFailed, 2] : List Int).get? 1 = some RaExecutionFailed
    ∧ (applyFusion [⟨10, false, -1⟩] ⟨0, [1, RaExecutionFailed, 2]⟩).get?
          (failsBefore [1, RaExecutionFailed, 2] 1)
        = some ⟨10, false, 1⟩ :=
  ⟨by decide,
    ((C4_fusion_indices [⟨10, false, -1⟩] ⟨0, [1, RaExecutionFailed, 2]⟩ 1 (by decide)).1).trans
      (by decide)⟩

/-- Claim C5: when the decoded error list is warnings only, checkError logs
each warning and returns success, and a message carrying such a list makes
IterateParts return Ok with the warnings logged; a list with at least one
non warning entry is returned as the error of the call. -/
theorem C5_warning_policy (s : ReaderState) (errs : List HdbError)
    (h1 : s.err = none) (h2 : s.decSticky = none) (h3 : s.lastErrors = some errs)
    (h4 : s.lastRowsAffected = none) :
    (onlyWarnings errs = true → checkError s = (none, errs, resetReadFlags s))
    ∧ (onlyWarnings errs = false → checkError s = (some (.hdb errs), [], resetReadFlags s))
    ∧ (IterateParts false none cexC5msg initState).out = .ok
    ∧ (IterateParts false none cexC5msg initState).warnLogs = [⟨3, true, 0⟩, ⟨4, true, 0⟩]
    ∧ (IterateParts false none cexC5fatal initState).out = .errO (.hdb [⟨9, false, 0⟩]) := by
  refine ⟨?_, ?_, by decide, by decide, by decide⟩
  · intro hw
    unfold checkError
    rw [h1, h2, h3, h4]
    simp [hw]
  · intro hw
    unfold checkError
    rw [h1, h2, h3, h4]
    simp [hw]

/-- Claim C5 witness: the warnings only branch at a concrete state. -/
theorem C5_warning_witness :
    ({ initState with lastErrors := some [⟨3, true, 0⟩] } : ReaderState).err = none
    ∧ onlyWarnings [⟨3, true, 0⟩] = true
    ∧ checkError { initState with lastErrors := some [⟨3, true, 0⟩] }
        = (none, [⟨3, true, 0⟩],
            resetReadFlags { initState with lastErrors := some [⟨3, true, 0⟩] }) :=
  ⟨rfl, by decide,
    (C5_warning_policy { initState with lastErrors := some [⟨3, true, 0⟩] }
      [⟨3, true, 0⟩] rfl rfl rfl rfl).1 rfl⟩

/-- Claim C6 counterexample: a message whose total is above INT32_MAX but
within UINT32_MAX is rejected only after the message header has been
encoded, refuting the claim that no header bytes are emitted. -/
theorem C6_counterexample :
    writerWriteCore none false false 0 0 false cexC6parts none
      = (some (.sizeInt32 2147483653), [.msgHdr 0 2147483653 2147483653 1], false)
    ∧ ([Emit.msgHdr 0 2147483653 2147483653 1] : List Emit) ≠ [] := by
  refine ⟨by decide, by decide⟩

/-- Claim C6 amended: a total above UINT32_MAX is rejected before anything
is emitted; a total within UINT32_MAX but above INT32_MAX is rejected after
the message header and before the segment header. -/
theorem C6_size_checks (sv : Option WPart) (svSent ci : Bool) (sid mt : Int) (commit : Bool)
    (parts0 : List WPart) (flushErr : Option ProtErr) :
    (msgSize (effectiveParts sv svSent ci parts0) > 4294967295 →
      (writerWriteCore sv svSent ci sid mt commit parts0 flushErr).1
          = some (.sizeUint32 (msgSize (effectiveParts sv svSent ci parts0)))
        ∧ (writerWriteCore sv svSent ci sid mt commit parts0 flushErr).2.1 = [])
    ∧ (msgSize (effectiveParts sv svSent ci parts0) ≤ 4294967295 →
        msgSize (effectiveParts sv svSent ci parts0) > 2147483647 →
      (writerWriteCore sv svSent ci sid mt commit parts0 flushErr).1
          = some (.sizeInt32 (msgSize (effectiveParts sv svSent ci parts0)))
        ∧ (writerWriteCore sv svSent ci sid mt commit parts0 flushErr).2.1
            = [.msgHdr sid (msgSize (effectiveParts sv svSent ci parts0))
                 (msgSize (effectiveParts sv svSent ci parts0)) 1]) := by
  constructor
  · intro h
    simp only [writerWriteCore]
    rw [if_pos h]
    exact ⟨rfl, rfl⟩
  · intro h1 h2
    simp only [writerWriteCore]
    rw [if_neg (by omega), if_pos h2]
    exact ⟨rfl, rfl⟩

/-- Claim C6 witness: both rejection branches at concrete part lists. -/
theorem C6_size_checks_witness :
    msgSize (effectiveParts none false false cexC6parts) ≤ 4294967295
    ∧ msgSize (effectiveParts none false false cexC6parts) > 2147483647
    ∧ (writerWriteCore none false false 0 0 false cexC6parts none).1
        = some (.sizeInt32 (msgSize (effectiveParts none false false cexC6parts)))
    ∧ msgSize (effectiveParts none false false [(⟨PkCommand, 4294967296, 1, none⟩ : WPart)])
        > 4294967295
    ∧ (writerWriteCore none false false 0 0 false
        [(⟨PkCommand, 4294967296, 1, none⟩ : WPart)] none).2.1 = [] :=
  ⟨by decide, by decide,
    ((C6_size_checks none false false 0 0 false cexC6parts none).2 (by decide) (by decide)).1,
    by decide,
    ((C6_size_checks none false false 0 0 false [⟨PkCommand, 4294967296, 1, none⟩] none).1
      (by decide)).2⟩

/-- Helper: the size accumulation fold is the sum over the mapped sizes. -/
theorem foldl_add_eq (g : WPart → Int) :
    ∀ (l : List WPart) (init : Int),
      l.foldl (fun acc p => acc + g p) init = init + (l.map g).sum := by
  intro l
  induction l with
  | nil => intro init; simp
  | cons p rest ih =>
    intro init
    simp only [List.foldl_cons, List.map_cons, List.sum_cons, ih]
    ring

/-- Helper: summing the per part header constant separates into a product. -/
theorem map_sum_hdr (l : List WPart) :
    (l.map fun p => partHeaderSize + p.size + padBytes p.size).sum
      = (l.length : Int) * partHeaderSize
        + (l.map fun p => p.size + padBytes p.size).sum := by
  induction l with
  | nil => simp
  | cons p rest ih =>
    simp only [List.map_cons, List.sum_cons, List.length_cons, ih]
    push_cast
    ring

/-- Helper: the Writer total equals the framing conservation formula. -/
theorem msgSize_eq_sum (parts : List WPart) :
    msgSize parts
      = segmentHeaderSize
        + (parts.map fun p => partHeaderSize + p.size + padBytes p.size).sum := by
  unfold msgSize
  rw [foldl_add_eq (fun p => p.size + padBytes p.size) parts, map_sum_hdr]
  ring

/-- Helper: the part emission loop never emits a message header. -/
theorem encodeParts_msgHdr_mem :
    ∀ (parts : List WPart) (bs : Int) (acc : List Emit) (a b c d : Int),
      Emit.msgHdr a b c d ∈ (encodeParts parts bs acc).2 → Emit.msgHdr a b c d ∈ acc := by
  intro parts
  induction parts with
  | nil => intro bs acc a b c d h; simpa [encodeParts] using h
  | cons p rest ih =>
    intro bs acc a b c d h
    simp only [encodeParts] at h
    cases hn : setNumArg p.numArg with
    | some e => rw [hn] at h; exact h
    | none =>
      rw [hn] at h
      cases he : p.encErr with
      | some e =>
        rw [he] at h
        simp only [List.mem_append, List.mem_singleton] at h
        rcases h with h | h
        · exact h
        · simp at h
      | none =>
        rw [he] at h
        rcases List.mem_append.mp (ih _ _ a b c d h) with h2 | h2
        · rcases List.mem_append.mp h2 with h3 | h3
          · exact h3
          · simp at h3
        · simp at h2

/-- Claim C7: every message header the Writer emits carries varPartLength
equal to segment header size plus the sum over all written parts of part
header size plus payload size plus pad to 8 of the payload size, with
noOfSegm = 1. -/
theorem C7_varPartLength (sv : Option WPart) (svSent ci : Bool) (sid mt : Int) (commit : Bool)
    (parts0 : List WPart) (flushErr : Option ProtErr) (a vpl vps ns : Int)
    (hm : Emit.msgHdr a vpl vps ns
            ∈ (writerWriteCore sv svSent ci sid mt commit parts0 flushErr).2.1) :
    vpl = segmentHeaderSize
        + ((effectiveParts sv svSent ci parts0).map
            fun p => partHeaderSize + p.size + padBytes p.size).sum
    ∧ a = sid ∧ ns = 1 := by
  simp only [writerWriteCore] at hm
  by_cases h1 : msgSize (effectiveParts sv svSent ci parts0) > 4294967295
  · rw [if_pos h1] at hm
    simp at hm
  · rw [if_neg h1] at hm
    by_cases h2 : msgSize (effectiveParts sv svSent ci parts0) > 2147483647
    · rw [if_pos h2] at hm
      simp only [List.mem_singleton, Emit.msgHdr.injEq] at hm
      obtain ⟨ha, hv, hvs, hn⟩ := hm
      exact ⟨by rw [hv, msgSize_eq_sum], ha, hn⟩
    · rw [if_neg h2] at hm
      rcases henc : encodeParts (effectiveParts sv svSent ci parts0)
          (msgSize (effectiveParts sv svSent ci parts0) - segmentHeaderSize)
          ([.msgHdr sid (msgSize (effectiveParts sv svSent ci parts0))
              (msgSize (effectiveParts sv svSent ci parts0)) 1]
            ++ [.segHdr (msgSize (effectiveParts sv svSent ci parts0))
                 ((effectiveParts sv svSent ci parts0).length : Int) 1 mt commit])
          with ⟨r, ems⟩
      rw [henc] at hm
      have hmem : Emit.msgHdr a vpl vps ns ∈ ems := by
        cases r with
        | some e => exact hm
        | none => cases flushErr <;> exact hm
      have h3 := encodeParts_msgHdr_mem _ _ _ a vpl vps ns (by rw [henc]; exact hmem)
      rcases List.mem_append.mp h3 with h4 | h4
      · simp only [List.mem_singleton, Emit.msgHdr.injEq] at h4
        obtain ⟨ha, hv, hvs, hn⟩ := h4
        exact ⟨by rw [hv, msgSize_eq_sum], ha, hn⟩
      · simp at h4

/-- Claim C7 witness: the framing conservation formula at a concrete part. -/
theorem C7_varPartLength_witness :
    Emit.msgHdr 0 37 37 1
        ∈ (writerWriteCore none false false 0 0 false [⟨PkCommand, 5, 1, none⟩] none).2.1
    ∧ (37 : Int) = segmentHeaderSize
        + ((effectiveParts none false false [⟨PkCommand, 5, 1, none⟩]).map
            fun p => partHeaderSize + p.size + padBytes p.size).sum :=
  ⟨by decide,
    (C7_varPartLength none false false 0 0 false [⟨PkCommand, 5, 1, none⟩] none 0 37 37 1
      (by decide)).1⟩

/-- Claim C8: when the part decoder consumed no more than the declared
buffer length, readPart skips exactly the shortfall so that precisely
bufferLength payload bytes are accounted; when it consumed more, readPart
aborts with the framing panic, so the consumed payload bytes never exceed
the declared buffer length. -/
theorem C8_consume_bound (cfg : Cfg) (finalSeg : Bool) (vpl : Nat) (wp : WirePart) (pt : PType)
    (s : ReaderState) (hsh : shapeOf pt ≠ Shape.result) :
    (wp.bufferLength < wp.decCnt →
      readPartCore wp pt s
        = .fault (.cntGtBuf wp.decCnt wp.bufferLength)
            { s with decCnt := wp.decCnt,
                     decSticky := s.decSticky.orElse fun _ => wp.decSticky })
    ∧ (wp.decCnt ≤ wp.bufferLength →
      readPartCore wp pt s
        = .ok wp.decErr
            { s with decCnt := wp.bufferLength,
                     readBytes := s.readBytes + wp.bufferLength,
                     decSticky := s.decSticky.orElse fun _ => wp.decSticky })
    ∧ (wp.bufferLength < wp.decCnt →
      readPart cfg finalSeg vpl wp pt s
        = .fault (.cntGtBuf wp.decCnt wp.bufferLength)
            { s with decCnt := wp.decCnt,
                     decSticky := s.decSticky.orElse fun _ => wp.decSticky }) := by
  have hfault : wp.bufferLength < wp.decCnt →
      readPartCore wp pt s
        = .fault (.cntGtBuf wp.decCnt wp.bufferLength)
            { s with decCnt := wp.decCnt,
                     decSticky := s.decSticky.orElse fun _ => wp.decSticky } := by
    intro h
    unfold readPartCore
    cases hpt : shapeOf pt with
    | result => exact absurd hpt hsh
    | plain =>
      dsimp only
      rw [if_neg (by omega), if_pos (by omega)]
    | numArg =>
      dsimp only
      rw [if_neg (by omega), if_pos (by omega)]
    | bufLen =>
      dsimp only
      rw [if_neg (by omega), if_pos (by omega)]
  have hok : wp.decCnt ≤ wp.bufferLength →
      readPartCore wp pt s
        = .ok wp.decErr
            { s with decCnt := wp.bufferLength,
                     readBytes := s.readBytes + wp.bufferLength,
                     decSticky := s.decSticky.orElse fun _ => wp.decSticky } := by
    intro h
    have harith : wp.decCnt + (wp.bufferLength - wp.decCnt) = wp.bufferLength := by omega
    unfold readPartCore
    cases hpt : shapeOf pt with
    | result => exact absurd hpt hsh
    | plain =>
      dsimp only
      by_cases hlt : wp.decCnt < wp.bufferLength
      · rw [if_pos hlt]
        simp only [harith]
      · have heq : wp.decCnt = wp.bufferLength := by omega
        rw [if_neg hlt, if_neg (by omega), heq]
    | numArg =>
      dsimp only
      by_cases hlt : wp.decCnt < wp.bufferLength
      · rw [if_pos hlt]
        simp only [harith]
      · have heq : wp.decCnt = wp.bufferLength := by omega
        rw [if_neg hlt, if_neg (by omega), heq]
    | bufLen =>
      dsimp only
      by_cases hlt : wp.decCnt < wp.bufferLength
      · rw [if_pos hlt]
        simp only [harith]
      · have heq : wp.decCnt = wp.bufferLength := by omega
        rw [if_neg hlt, if_neg (by omega), heq]
  refine ⟨hfault, hok, ?_⟩
  intro h
  unfold readPart
  rw [hfault h]

/-- Claim C8 witness: both the shortfall and the over read branch at
concrete parts. -/
theorem C8_consume_witness :
    ({ kind := PkCommand, bufferLength := 2, decCnt := 4 } : WirePart).bufferLength
        < ({ kind := PkCommand, bufferLength := 2, decCnt := 4 } : WirePart).decCnt
    ∧ readPartCore { kind := PkCommand, bufferLength := 2, decCnt := 4 }
        (.otherPart .bufLen) initState
        = .fault (.cntGtBuf 4 2) { initState with decCnt := 4 }
    ∧ readPartCore { kind := PkCommand, bufferLength := 4, decCnt := 2 }
        (.otherPart .bufLen) initState
        = .ok none { initState with decCnt := 4, readBytes := 4 } :=
  ⟨by decide,
    (C8_consume_bound ⟨false, false⟩ false 0 { kind := PkCommand, bufferLength := 2, decCnt := 4 }
      (.otherPart .bufLen) initState (by decide)).1 (by decide),
    (C8_consume_bound ⟨false, false⟩ false 0 { kind := PkCommand, bufferLength := 4, decCnt := 2 }
      (.otherPart .bufLen) initState (by decide)).2.1 (by decide)⟩

/-- Claim C9: SkipParts is definitionally IterateParts with a nil handler,
and on a reply carrying a fatal Error part it still materializes and fuses
the error rather than discarding it. -/
theorem C9_skipparts_equiv :
    (∀ (protTrace : Bool) (msg : WireMessage) (s : ReaderState),
      SkipParts protTrace msg s = IterateParts protTrace none msg s)
    ∧ (SkipParts false cexC9msg initState).out = .errO (.hdb [⟨5, false, 0⟩]) :=
  ⟨fun _ _ _ => rfl, by decide⟩

/-- Claim C10: every non nil error returned by Writer.Write, including the
purely local message size validation failures, satisfies errors.Is with the
driver.ErrBadConn sentinel. -/
theorem C10_badconn (sv : Option WPart) (svSent ci : Bool) (sid mt : Int) (commit : Bool)
    (parts0 : List WPart) (flushErr : Option ProtErr) (ge : GoError)
    (h : (writerWrite sv svSent ci sid mt commit parts0 flushErr).1 = some ge) :
    errorsIs ge .badConn = true := by
  unfold writerWrite at h
  rcases hc : writerWriteCore sv svSent ci sid mt commit parts0 flushErr with ⟨r, ems, sv2⟩
  rw [hc] at h
  cases r with
  | some e =>
    simp only [Option.some.injEq] at h
    rw [← h]
    simp only [errorsIs, Bool.or_eq_true]
    exact Or.inr (by decide)
  | none => simp at h

/-- Claim C10 witness: the size limit failure joined with the bad
connection sentinel at a concrete part list. -/
theorem C10_badconn_witness :
    (writerWrite none false false 0 0 false cexC10parts none).1
        = some (.joinE (.protErr (.sizeUint32 4294967325)) .badConn)
    ∧ errorsIs (.joinE (.protErr (.sizeUint32 4294967325)) .badConn) .badConn = true :=
  ⟨by decide,
    C10_badconn none false false 0 0 false cexC10parts none _ (by decide)⟩
